import Mathlib

/-
Verification development for the banking-audit-compliance ledger.

The Go sources are embedded shallowly:
  internal/crypto/encryption.go      → bindingString, generateDigitalSignature, verifyHMAC,
                                       verifyDigitalSignature (HMAC-SHA256 is modelled as an
                                       abstract deterministic keyed function `mac`)
  internal/repository/postgres/audit_repo.go
                                     → createEvent, matchesFilter, getEvents,
                                       getLastEventSignature (the database is a list of rows;
                                       ORDER BY timestamp DESC is an insertion sort on the
                                       physical row order, which realizes the SQL guarantee)
  internal/service/audit_service.go  → enrichEvent, signEvent, processAndStoreEvent,
                                       verifyStoredEvent, firstInvalid, getAuditTrail
  internal/events/consumer.go        → retryStore, processMessage
  internal/repository/elasticsearch/search_repo.go
                                     → searchEventsPage (the Page computation; integer
                                       division by zero is a Go runtime panic, modelled
                                       as Option.none)
  internal/api/audit_handler.go      → handlerSearchSize (the size-defaulting logic)
  migrations (audit_events schema)   → SQLRow, rowOfEvent, violatesNotNull

Go's time.Time is modelled as Unix seconds plus nanoseconds; Format(time.RFC3339) is
implemented from the Gregorian civil-calendar conversion and, like Go's layout
"2006-01-02T15:04:05Z07:00", contains no fractional-second component, so it depends only
on the whole-second part of the instant.

uuid.UUID values are modelled by their canonical string rendering, which is a faithful
quotient because uuid.UUID.String() is injective on the 16-byte values.
-/

namespace BankingAudit

/-- Model of Go's time.Time restricted to UTC instants: Unix seconds plus nanoseconds. -/
structure GoTime where
  sec : Int
  nsec : Int
deriving DecidableEq, Repr

/-- The Go zero time (January 1, year 1, 00:00:00 UTC) in Unix seconds; time.Time.IsZero
compares against this value. -/
def goZeroTime : GoTime := ⟨-62135596800, 0⟩

/-- Comparison of instants, seconds first then nanoseconds, as in Go's Time.Before/After
and in PostgreSQL's ordering of timestamptz values. -/
def GoTime.le (a b : GoTime) : Prop :=
  a.sec < b.sec ∨ (a.sec = b.sec ∧ a.nsec ≤ b.nsec)

instance : DecidableRel GoTime.le := fun a b => by
  unfold GoTime.le; infer_instance

/-- Model of github.com/google/uuid.UUID by its canonical string rendering
(String() is injective on the underlying 16 bytes, so this quotient is faithful). -/
structure UUID where
  str : String
deriving DecidableEq, Repr

/-- Model of uuid.Nil, the all-zero UUID. -/
def nilUUID : UUID := ⟨"00000000-0000-0000-0000-000000000000"⟩

/-- Left-pad a natural below 100 to two digits, as in Go's stdFormat for months, days,
hours, minutes and seconds. -/
def pad2 (n : Nat) : String :=
  if n < 10 then "0" ++ Nat.repr n else Nat.repr n

/-- Left-pad a natural to at least four digits, as in Go's year formatting. -/
def pad4 (n : Nat) : String :=
  if n < 10 then "000" ++ Nat.repr n
  else if n < 100 then "00" ++ Nat.repr n
  else if n < 1000 then "0" ++ Nat.repr n
  else Nat.repr n

/-- Convert a count of days since 1970-01-01 to a Gregorian civil date (year, month, day);
the standard era-based algorithm used by civil-time libraries and equivalent to Go's
internal absDate computation. -/
def civilFromDays (z0 : Int) : Int × Nat × Nat :=
  let z := z0 + 719468
  let era : Int := z.fdiv 146097
  let doe : Nat := (z - era * 146097).toNat
  let yoe : Nat := (doe - doe / 1460 + doe / 36524 - doe / 146096) / 365
  let doy : Nat := doe - (365 * yoe + yoe / 4 - yoe / 100)
  let mp : Nat := (5 * doy + 2) / 153
  let d : Nat := doy - (153 * mp + 2) / 5 + 1
  let m : Nat := if mp < 10 then mp + 3 else mp - 9
  let y : Int := (yoe : Int) + era * 400 + (if m ≤ 2 then 1 else 0)
  (y, m, d)

/-- Model of t.Format(time.RFC3339) for a UTC instant. The layout
"2006-01-02T15:04:05Z07:00" carries no fractional seconds, so the rendering depends only
on GoTime.sec, never on GoTime.nsec. -/
def formatRFC3339 (t : GoTime) : String :=
  let days := t.sec.fdiv 86400
  let sod : Nat := (t.sec - days * 86400).toNat
  let ymd := civilFromDays days
  let y := ymd.1
  let m := ymd.2.1
  let d := ymd.2.2
  let ys := if y < 0 then "-" ++ pad4 (-y).toNat else pad4 y.toNat
  ys ++ "-" ++ pad2 m ++ "-" ++ pad2 d ++ "T" ++
    pad2 (sod / 3600) ++ ":" ++ pad2 (sod % 3600 / 60) ++ ":" ++ pad2 (sod % 60) ++ "Z"

/-- Embedding of domain.AuditEvent (internal/domain/aml.go). Go pointer fields are
Option; the string-typed enums ActionType and AuditResult are plain strings as in the
source; the byte-slice blobs are carried as strings. -/
structure AuditEvent where
  eventID : UUID
  transactionID : Option UUID
  userID : UUID
  actorID : Option UUID
  actionType : String
  resourceType : String
  resourceID : String
  serviceSource : String
  timestamp : GoTime
  result : String
  failureReason : Option String
  ipAddress : String
  geolocation : Option String
  userAgent : Option String
  requestID : String
  sessionID : Option String
  digitalSignature : String
  metadata : Option String
  dataBefore : Option String
  dataAfter : Option String
  complianceFlags : List String
  retentionCategory : String
  encryptionKeyID : Int
  createdAt : GoTime
deriving DecidableEq, Repr

/-- Embedding of domain.NewAuditEvent; uuid.New() and time.Now().UTC() are passed in as
the freshID and now parameters. -/
def newAuditEvent (freshID : UUID) (now : GoTime) (userID : UUID)
    (action resource resourceID : String) : AuditEvent :=
  { eventID := freshID
    transactionID := none
    userID := userID
    actorID := none
    actionType := action
    resourceType := resource
    resourceID := resourceID
    serviceSource := ""
    timestamp := now
    result := "PENDING"
    failureReason := none
    ipAddress := ""
    geolocation := none
    userAgent := none
    requestID := ""
    sessionID := none
    digitalSignature := ""
    metadata := none
    dataBefore := none
    dataAfter := none
    complianceFlags := []
    retentionCategory := "STANDARD"
    encryptionKeyID := 0
    createdAt := now }

/-- Embedding of domain.AuditEventFilter (internal/domain/aml.go). Limit and Offset are
naturals: the SQL layer rejects negative LIMIT/OFFSET outright, so nonnegative values are
the domain on which GetEvents returns a page at all. Go's int is 64-bit signed, and the
Offset+Limit addition inside GetEvents' HasMore wraps (see wrapInt64). -/
structure AuditEventFilter where
  eventID : Option UUID := none
  userID : Option UUID := none
  transactionID : Option UUID := none
  actionTypes : List String := []
  resourceTypes : List String := []
  resourceID : Option String := none
  startTime : Option GoTime := none
  endTime : Option GoTime := none
  result : Option String := none
  serviceSource : Option String := none
  ipAddress : Option String := none
  limit : Nat := 0
  offset : Nat := 0
deriving Repr

/-- Embedding of domain.AuditEventPage. -/
structure AuditEventPage where
  events : List AuditEvent
  totalCount : Int
  page : Int
  pageSize : Int
  hasMore : Bool
deriving DecidableEq, Repr

/-- Embedding of the binding built by fmt.Sprintf in
GenerateDigitalSignature/VerifyDigitalSignature (internal/crypto/encryption.go): the
exact concatenation of the five critical fields with literal pipe separators. -/
def bindingString (eventID userID action timestamp result : String) : String :=
  eventID ++ "|" ++ userID ++ "|" ++ action ++ "|" ++ timestamp ++ "|" ++ result

/-- Embedding of FieldEncryptor.HMAC / VerifyHMAC: the keyed HMAC-SHA256 (hex encoded)
is modelled as an abstract deterministic function mac; hmac.Equal on the two hex strings
is string equality. -/
def verifyHMAC (mac : String → String) (data signature : String) : Bool :=
  mac data == signature

/-- Embedding of FieldEncryptor.GenerateDigitalSignature. -/
def generateDigitalSignature (mac : String → String)
    (eventID userID action timestamp result : String) : String :=
  mac (bindingString eventID userID action timestamp result)

/-- Embedding of FieldEncryptor.VerifyDigitalSignature. -/
def verifyDigitalSignature (mac : String → String)
    (eventID userID action timestamp result signature : String) : Bool :=
  verifyHMAC mac (bindingString eventID userID action timestamp result) signature

/-- SQL view of one audit_events row: every column as the nullable value actually sent
to PostgreSQL by pgx (migration file, CREATE TABLE audit_events). -/
structure SQLRow where
  event_id : Option UUID
  transaction_id : Option UUID
  user_id : Option UUID
  actor_id : Option UUID
  action_type : Option String
  resource_type : Option String
  resource_id : Option String
  service_source : Option String
  timestamp : Option GoTime
  result : Option String
  failure_reason : Option String
  ip_address : Option String
  geolocation : Option String
  user_agent : Option String
  request_id : Option String
  session_id : Option String
  digital_signature : Option String
  metadata : Option String
  data_before : Option String
  data_after : Option String
  compliance_flags : Option (List String)
  retention_category : Option String
  encryption_key_id : Option Int
  created_at : Option GoTime
deriving DecidableEq, Repr

/-- The parameter row CreateEvent sends for an event: Go non-pointer fields (strings,
uuid.UUID, time.Time, int) are always encoded as SQL values, never as NULL; only the
pointer-typed fields can be NULL. -/
def rowOfEvent (e : AuditEvent) : SQLRow :=
  { event_id := some e.eventID
    transaction_id := e.transactionID
    user_id := some e.userID
    actor_id := e.actorID
    action_type := some e.actionType
    resource_type := some e.resourceType
    resource_id := some e.resourceID
    service_source := some e.serviceSource
    timestamp := some e.timestamp
    result := some e.result
    failure_reason := e.failureReason
    ip_address := some e.ipAddress
    geolocation := e.geolocation
    user_agent := e.userAgent
    request_id := some e.requestID
    session_id := e.sessionID
    digital_signature := some e.digitalSignature
    metadata := e.metadata
    data_before := e.dataBefore
    data_after := e.dataAfter
    compliance_flags := some e.complianceFlags
    retention_category := some e.retentionCategory
    encryption_key_id := some e.encryptionKeyID
    created_at := some e.createdAt }

/-- The NOT NULL constraints of the audit_events table (migration file): event_id,
user_id, action_type, resource_type, resource_id, timestamp, result, digital_signature
and retention_category must not be NULL. -/
def violatesNotNull (r : SQLRow) : Bool :=
  r.event_id.isNone || r.user_id.isNone || r.action_type.isNone ||
  r.resource_type.isNone || r.resource_id.isNone || r.timestamp.isNone ||
  r.result.isNone || r.digital_signature.isNone || r.retention_category.isNone

/-- Embedding of AuditRepository.CreateEvent: a single INSERT into audit_events. The
database rejects the write on a primary-key duplicate of event_id or on a NOT NULL
violation; otherwise the row is appended. The ledger state is the list of committed
events in physical insertion order. -/
def createEvent (db : List AuditEvent) (e : AuditEvent) : Except String (List AuditEvent) :=
  if e.eventID ∈ db.map (fun r => r.eventID) then
    .error "failed to insert audit event: duplicate key value violates unique constraint audit_events_pkey"
  else if violatesNotNull (rowOfEvent e) then
    .error "failed to insert audit event: null value violates not-null constraint"
  else
    .ok (db ++ [e])

/-- Embedding of the WHERE clause built by AuditRepository.GetEvents: the source adds a
predicate only for EventID, UserID, TransactionID, ResourceID, StartTime and EndTime; the
remaining filter fields never reach the query. -/
def matchesFilter (f : AuditEventFilter) (e : AuditEvent) : Bool :=
  (match f.eventID with | none => true | some v => e.eventID == v) &&
  (match f.userID with | none => true | some v => e.userID == v) &&
  (match f.transactionID with | none => true | some v => e.transactionID == some v) &&
  (match f.resourceID with | none => true | some v => e.resourceID == v) &&
  (match f.startTime with | none => true | some t => decide (GoTime.le t e.timestamp)) &&
  (match f.endTime with | none => true | some t => decide (GoTime.le e.timestamp t))

/-- The ordering requested by ORDER BY timestamp DESC in GetEvents: an earlier list
position must not have a strictly smaller timestamp. No other column takes part. -/
def tsDescRel (a b : AuditEvent) : Prop :=
  GoTime.le b.timestamp a.timestamp

instance : DecidableRel tsDescRel := fun a b => by
  unfold tsDescRel; infer_instance

instance : IsTotal AuditEvent tsDescRel := by
  constructor
  intro a b
  unfold tsDescRel GoTime.le
  omega

instance : IsTrans AuditEvent tsDescRel := by
  constructor
  intro a b c
  unfold tsDescRel GoTime.le
  omega

/-- Two's-complement wrap-around of a 64-bit signed integer, as Go's int arithmetic
computes it on 64-bit platforms: the value reduced into the interval from -2^63 up to
2^63 - 1. -/
def wrapInt64 (n : Int) : Int :=
  (n + 2 ^ 63) % 2 ^ 64 - 2 ^ 63

/-- Embedding of AuditRepository.GetEvents: count over the filtered set (the COUNT(*)
subquery carries no LIMIT/OFFSET), then ORDER BY timestamp DESC with OFFSET and LIMIT.
The sort is realized as a stable insertion sort on the physical row order, a legitimate
execution of the SQL ordering, which constrains timestamps only. HasMore compares the
count with int64(filter.Offset+filter.Limit), where the Offset+Limit addition is Go's
wrapping 64-bit int addition. -/
def getEvents (db : List AuditEvent) (f : AuditEventFilter) : AuditEventPage :=
  let matching := db.filter (matchesFilter f)
  let totalCount : Int := matching.length
  let ordered := List.insertionSort tsDescRel matching
  let events := (ordered.drop f.offset).take f.limit
  { events := events
    totalCount := totalCount
    page := 0
    pageSize := (f.limit : Int)
    hasMore := decide (totalCount > wrapInt64 ((f.offset : Int) + (f.limit : Int))) }

/-- Embedding of AuditRepository.GetLastEventSignature: SELECT digital_signature ORDER BY
timestamp DESC LIMIT 1, with pgx.ErrNoRows mapped to the empty string (genesis case). -/
def getLastEventSignature (db : List AuditEvent) : Except String String :=
  match (List.insertionSort tsDescRel db).head? with
  | none => .ok ""
  | some e => .ok e.digitalSignature

/-- Step 1 of ProcessAndStoreEvent: if event.EventID == uuid.Nil, assign a fresh id. -/
def enrichID (freshID : UUID) (e : AuditEvent) : AuditEvent :=
  if e.eventID = nilUUID then { e with eventID := freshID } else e

/-- Step 2 of ProcessAndStoreEvent: if event.CreatedAt.IsZero(), set it to now. -/
def enrichCreatedAt (now : GoTime) (e : AuditEvent) : AuditEvent :=
  if e.createdAt = goZeroTime then { e with createdAt := now } else e

/-- Step 3 of ProcessAndStoreEvent: if event.Timestamp.IsZero(), set it to CreatedAt. -/
def enrichTimestamp (e : AuditEvent) : AuditEvent :=
  if e.timestamp = goZeroTime then { e with timestamp := e.createdAt } else e

/-- First half of AuditService.ProcessAndStoreEvent: assign the event id if nil, default
CreatedAt to now, default Timestamp to CreatedAt. -/
def enrichEvent (freshID : UUID) (now : GoTime) (e : AuditEvent) : AuditEvent :=
  enrichTimestamp (enrichCreatedAt now (enrichID freshID e))

/-- Second half of the signing step of ProcessAndStoreEvent: stamp the digital signature
over EventID.String(), UserID.String(), ActionType, Timestamp.Format(RFC3339), Result,
and record the current key version. -/
def signEvent (mac : String → String) (keyVersion : Int) (e : AuditEvent) : AuditEvent :=
  { e with
    digitalSignature := generateDigitalSignature mac e.eventID.str e.userID.str
      e.actionType (formatRFC3339 e.timestamp) e.result
    encryptionKeyID := keyVersion }

/-- Embedding of AuditService.ProcessAndStoreEvent: enrich, sign, then append through
CreateEvent; a storage failure is wrapped and surfaced. The processed event is returned
along with the new ledger state (the Go code mutates the event through its pointer, so
the caller observes the enriched, signed event even on failure). -/
def processAndStoreEvent (mac : String → String) (keyVersion : Int) (freshID : UUID)
    (now : GoTime) (db : List AuditEvent) (e : AuditEvent) :
    AuditEvent × Except String (List AuditEvent) :=
  match createEvent db (signEvent mac keyVersion (enrichEvent freshID now e)) with
  | .error msg =>
    (signEvent mac keyVersion (enrichEvent freshID now e),
     .error ("ledger persistence failed: " ++ msg))
  | .ok db2 => (signEvent mac keyVersion (enrichEvent freshID now e), .ok db2)

/-- The per-record verification performed by the read path: VerifyDigitalSignature over
the same five fields the signer bound. -/
def verifyStoredEvent (mac : String → String) (e : AuditEvent) : Bool :=
  verifyDigitalSignature mac e.eventID.str e.userID.str e.actionType
    (formatRFC3339 e.timestamp) e.result e.digitalSignature

/-- The verification loop of AuditService.GetAuditTrail: scan the page in order and stop
at the first event whose signature does not verify. -/
def firstInvalid (mac : String → String) : List AuditEvent → Option AuditEvent
  | [] => none
  | e :: rest => if verifyStoredEvent mac e then firstInvalid mac rest else some e

/-- Embedding of AuditService.GetAuditTrail: query the ledger, then verify every returned
record; on the first failure return the integrity error naming the offending event id and
no page. -/
def getAuditTrail (mac : String → String) (db : List AuditEvent) (f : AuditEventFilter) :
    Except String AuditEventPage :=
  match firstInvalid mac (getEvents db f).events with
  | some e => .error ("audit integrity failure: event " ++ e.eventID.str ++ " signature invalid")
  | none => .ok (getEvents db f)

/-- The retry loop of auditConsumerHandler.processMessage: up to `remaining` attempts of
ProcessAndStoreEvent; on failure with attempts left, back off and retry with the (by now
enriched and signed) event; when the last attempt fails the event is dropped. Returns the
ledger state and the number of attempts made. -/
def retryStore (mac : String → String) (keyVersion : Int) (freshID : UUID) (now : GoTime) :
    Nat → List AuditEvent → AuditEvent → List AuditEvent × Nat
  | 0, db, _ => (db, 0)
  | n + 1, db, ev =>
    match processAndStoreEvent mac keyVersion freshID now db ev with
    | (_, .ok db2) => (db2, 1)
    | (ev2, .error _) =>
      if n = 0 then (db, 1)
      else
        let r := retryStore mac keyVersion freshID now n db ev2
        (r.1, r.2 + 1)

/-- Embedding of processMessage plus the surrounding ConsumeClaim step: maxRetries is 3,
and session.MarkMessage commits the offset unconditionally once processMessage returns,
whether the event was stored or dropped. Returns (ledger, attempts, offsetCommitted). -/
def processMessage (mac : String → String) (keyVersion : Int) (freshID : UUID)
    (now : GoTime) (db : List AuditEvent) (ev : AuditEvent) :
    List AuditEvent × Nat × Bool :=
  let r := retryStore mac keyVersion freshID now 3 db ev
  (r.1, r.2, true)

/-- The page construction of SearchRepository.SearchEvents: Page is from/size + 1 with
Go's truncated integer division, which panics at runtime when size is zero; the panic is
modelled as none. -/
def searchEventsPage (fromIdx size total : Int) (events : List AuditEvent) :
    Option AuditEventPage :=
  if size = 0 then none
  else
    some { events := events
           totalCount := total
           page := fromIdx.tdiv size + 1
           pageSize := size
           hasMore := decide (total > fromIdx + size) }

/-- The size-defaulting of the HTTP handler AuditHandler.SearchEvents: a zero size
becomes 20 before the repository is called. -/
def handlerSearchSize (raw : Int) : Int :=
  if raw = 0 then 20 else raw

/-- Bytewise-lexicographic comparison of the canonical UUID renderings, the order
PostgreSQL uses for the uuid column in `event_id DESC`. -/
def charListLt : List Char → List Char → Bool
  | [], [] => false
  | [], _ :: _ => true
  | _ :: _, [] => false
  | a :: as, b :: bs =>
    if a.toNat < b.toNat then true
    else if b.toNat < a.toNat then false
    else charListLt as bs

/-- Order on UUIDs through their canonical renderings (hex strings of equal length, so
this coincides with the bytewise order on the underlying 16 bytes). -/
def uuidLt (a b : UUID) : Bool :=
  charListLt a.str.data b.str.data

/-- Concrete MAC used to instantiate the abstract HMAC in witnesses: the identity
function, which is injective, as collision resistance demands of HMAC-SHA256. -/
def wMac : String → String := fun s => s

/-- Concrete fresh id for witnesses. -/
def wFreshID : UUID := ⟨"11111111-1111-1111-1111-111111111111"⟩

/-- Concrete ingest wall-clock instant for witnesses. -/
def wNow : GoTime := ⟨5, 0⟩

/-- Concrete bus event for witnesses: a LOGIN with explicit id, user and timestamp. -/
def wEv : AuditEvent :=
  newAuditEvent ⟨"aaaaaaaa-0000-0000-0000-000000000001"⟩ ⟨100, 0⟩
    ⟨"bbbbbbbb-0000-0000-0000-000000000002"⟩ "LOGIN" "USER" "acct-1"

/-- The event as committed by the ingest path for wEv. -/
def wStored : AuditEvent := (processAndStoreEvent wMac 1 wFreshID wNow [] wEv).1

/-- A committed row whose signature field was tampered with (for the read-path claims). -/
def wBad : AuditEvent :=
  { newAuditEvent ⟨"cccccccc-0000-0000-0000-000000000003"⟩ ⟨7, 0⟩
      ⟨"bbbbbbbb-0000-0000-0000-000000000002"⟩ "READ" "USER" "acct-2" with
    digitalSignature := "tampered" }

/-- Two rows with equal timestamps and increasing event ids (for the ordering claims). -/
def wEvA : AuditEvent :=
  signEvent wMac 1 (newAuditEvent ⟨"00000000-0000-0000-0000-000000000001"⟩ ⟨50, 0⟩
    ⟨"bbbbbbbb-0000-0000-0000-000000000002"⟩ "LOGIN" "USER" "acct-3")

/-- Companion row to wEvA: same timestamp, larger event id. -/
def wEvB : AuditEvent :=
  signEvent wMac 1 (newAuditEvent ⟨"00000000-0000-0000-0000-000000000002"⟩ ⟨50, 0⟩
    ⟨"bbbbbbbb-0000-0000-0000-000000000002"⟩ "LOGIN" "USER" "acct-4")

/-- A committed row whose result is FAILURE (for the filter claims). -/
def wFailEv : AuditEvent :=
  signEvent wMac 1
    ({ newAuditEvent ⟨"dddddddd-0000-0000-0000-000000000004"⟩ ⟨9, 0⟩
        ⟨"bbbbbbbb-0000-0000-0000-000000000002"⟩ "LOGIN" "USER" "acct-5" with
      result := "FAILURE" })

/-- An event lacking every field the spec calls required: nil event id, nil user id, zero
timestamp, empty result and empty digital signature. -/
def wEmptyEv : AuditEvent :=
  { newAuditEvent nilUUID goZeroTime nilUUID "" "" "" with result := "" }

/-- A one-predicate filter used by witnesses. -/
def wUserFilter : AuditEventFilter :=
  { userID := some ⟨"bbbbbbbb-0000-0000-0000-000000000002"⟩, limit := 1 }

/-
Helper lemmas about the string plumbing of the binding, the repository and the
verification loop. None of them is a claim theorem.
-/

theorem string_data_append (s t : String) : (s ++ t).data = s.data ++ t.data := rfl

theorem string_eq_of_data {s t : String} (h : s.data = t.data) : s = t := by
  cases s; cases t; exact congrArg String.mk h

theorem uuid_eq_of_str {a b : UUID} (h : a.str = b.str) : a = b := by
  cases a; cases b; exact congrArg UUID.mk h

theorem bindingString_data (a b c d e : String) :
    (bindingString a b c d e).data =
      a.data ++ ('|' :: (b.data ++ ('|' :: (c.data ++ ('|' :: (d.data ++ ('|' :: e.data))))))) := by
  simp [bindingString, string_data_append]

theorem bindingString_inj_eventID {a a2 b c d e : String}
    (h : bindingString a b c d e = bindingString a2 b c d e) : a = a2 := by
  have hd := congrArg String.data h
  rw [bindingString_data, bindingString_data] at hd
  exact string_eq_of_data (List.append_cancel_right hd)

theorem bindingString_inj_userID {a b b2 c d e : String}
    (h : bindingString a b c d e = bindingString a b2 c d e) : b = b2 := by
  have hd := congrArg String.data h
  rw [bindingString_data, bindingString_data] at hd
  have h1 := List.append_cancel_left hd
  have h2 : b.data ++ ('|' :: (c.data ++ ('|' :: (d.data ++ ('|' :: e.data))))) =
      b2.data ++ ('|' :: (c.data ++ ('|' :: (d.data ++ ('|' :: e.data))))) := by
    simpa using h1
  exact string_eq_of_data (List.append_cancel_right h2)

theorem bindingString_inj_action {a b c c2 d e : String}
    (h : bindingString a b c d e = bindingString a b c2 d e) : c = c2 := by
  have hd := congrArg String.data h
  rw [bindingString_data, bindingString_data] at hd
  have h1 := List.append_cancel_left hd
  have h2 : b.data ++ ('|' :: (c.data ++ ('|' :: (d.data ++ ('|' :: e.data))))) =
      b.data ++ ('|' :: (c2.data ++ ('|' :: (d.data ++ ('|' :: e.data))))) := by
    simpa using h1
  have h3 := List.append_cancel_left h2
  have h4 : c.data ++ ('|' :: (d.data ++ ('|' :: e.data))) =
      c2.data ++ ('|' :: (d.data ++ ('|' :: e.data))) := by
    simpa using h3
  exact string_eq_of_data (List.append_cancel_right h4)

theorem bindingString_inj_timestamp {a b c d d2 e : String}
    (h : bindingString a b c d e = bindingString a b c d2 e) : d = d2 := by
  have hd := congrArg String.data h
  rw [bindingString_data, bindingString_data] at hd
  have h1 := List.append_cancel_left hd
  have h2 : b.data ++ ('|' :: (c.data ++ ('|' :: (d.data ++ ('|' :: e.data))))) =
      b.data ++ ('|' :: (c.data ++ ('|' :: (d2.data ++ ('|' :: e.data))))) := by
    simpa using h1
  have h3 := List.append_cancel_left h2
  have h4 : c.data ++ ('|' :: (d.data ++ ('|' :: e.data))) =
      c.data ++ ('|' :: (d2.data ++ ('|' :: e.data))) := by
    simpa using h3
  have h5 := List.append_cancel_left h4
  have h6 : d.data ++ ('|' :: e.data) = d2.data ++ ('|' :: e.data) := by
    simpa using h5
  exact string_eq_of_data (List.append_cancel_right h6)

theorem bindingString_inj_result {a b c d e e2 : String}
    (h : bindingString a b c d e = bindingString a b c d e2) : e = e2 := by
  have hd := congrArg String.data h
  rw [bindingString_data, bindingString_data] at hd
  have h1 := List.append_cancel_left hd
  have h2 : b.data ++ ('|' :: (c.data ++ ('|' :: (d.data ++ ('|' :: e.data))))) =
      b.data ++ ('|' :: (c.data ++ ('|' :: (d.data ++ ('|' :: e2.data))))) := by
    simpa using h1
  have h3 := List.append_cancel_left h2
  have h4 : c.data ++ ('|' :: (d.data ++ ('|' :: e.data))) =
      c.data ++ ('|' :: (d.data ++ ('|' :: e2.data))) := by
    simpa using h3
  have h5 := List.append_cancel_left h4
  have h6 : d.data ++ ('|' :: e.data) = d.data ++ ('|' :: e2.data) := by
    simpa using h5
  have h7 := List.append_cancel_left h6
  exact string_eq_of_data (by simpa using h7)

theorem verifyHMAC_self (mac : String → String) (d : String) :
    verifyHMAC mac d (mac d) = true := by
  simp [verifyHMAC]

theorem verifyHMAC_false {mac : String → String} (hinj : Function.Injective mac)
    {d1 d2 : String} (h : d1 ≠ d2) : verifyHMAC mac d1 (mac d2) = false := by
  unfold verifyHMAC
  exact beq_eq_false_iff_ne.mpr (fun hc => h (hinj hc))

theorem violatesNotNull_rowOfEvent (e : AuditEvent) :
    violatesNotNull (rowOfEvent e) = false := rfl

theorem createEvent_not_mem {db : List AuditEvent} {e : AuditEvent}
    (h : e.eventID ∉ db.map (fun r => r.eventID)) :
    createEvent db e = .ok (db ++ [e]) := by
  simp [createEvent, h, violatesNotNull_rowOfEvent]

theorem createEvent_mem (db : List AuditEvent) (e : AuditEvent)
    (h : e.eventID ∈ db.map (fun r => r.eventID)) :
    createEvent db e =
      .error "failed to insert audit event: duplicate key value violates unique constraint audit_events_pkey" := by
  simp [createEvent, h]

theorem createEvent_ok_elim {db db2 : List AuditEvent} {e : AuditEvent}
    (h : createEvent db e = .ok db2) : db2 = db ++ [e] := by
  unfold createEvent at h
  split at h
  · simp at h
  · rw [violatesNotNull_rowOfEvent] at h
    simp at h
    exact h.symm

theorem processAndStore_fst (mac : String → String) (kv : Int) (fid : UUID) (now : GoTime)
    (db : List AuditEvent) (e : AuditEvent) :
    (processAndStoreEvent mac kv fid now db e).1 = signEvent mac kv (enrichEvent fid now e) := by
  unfold processAndStoreEvent
  cases hc : createEvent db (signEvent mac kv (enrichEvent fid now e)) <;> simp [hc]

theorem verifyStoredEvent_signEvent (mac : String → String) (kv : Int) (e : AuditEvent) :
    verifyStoredEvent mac (signEvent mac kv e) = true := by
  simp [verifyStoredEvent, signEvent, verifyDigitalSignature, generateDigitalSignature,
    verifyHMAC]

theorem mem_getEvents_mem_filter {db : List AuditEvent} {f : AuditEventFilter}
    {e : AuditEvent} (h : e ∈ (getEvents db f).events) :
    e ∈ db.filter (matchesFilter f) := by
  have h1 := List.mem_of_mem_take h
  have h2 := List.mem_of_mem_drop h1
  exact (List.perm_insertionSort tsDescRel (db.filter (matchesFilter f))).mem_iff.mp h2

theorem firstInvalid_none_iff (mac : String → String) (l : List AuditEvent) :
    firstInvalid mac l = none ↔ ∀ e ∈ l, verifyStoredEvent mac e = true := by
  induction l with
  | nil => simp [firstInvalid]
  | cons a t ih =>
    by_cases hv : verifyStoredEvent mac a <;> simp [firstInvalid, hv, ih]

theorem firstInvalid_eq_find (mac : String → String) (l : List AuditEvent) :
    firstInvalid mac l = l.find? (fun e => ! verifyStoredEvent mac e) := by
  induction l with
  | nil => rfl
  | cons a t ih =>
    by_cases hv : verifyStoredEvent mac a <;> simp [firstInvalid, List.find?, hv, ih]

theorem firstInvalid_some_elim {mac : String → String} {l : List AuditEvent}
    {e : AuditEvent} (h : firstInvalid mac l = some e) :
    e ∈ l ∧ verifyStoredEvent mac e = false := by
  induction l with
  | nil => simp [firstInvalid] at h
  | cons a t ih =>
    by_cases hv : verifyStoredEvent mac a
    · rw [firstInvalid, if_pos hv] at h
      obtain ⟨h1, h2⟩ := ih h
      exact ⟨List.mem_cons_of_mem a h1, h2⟩
    · rw [firstInvalid, if_neg hv] at h
      obtain rfl : a = e := by simpa using h
      exact ⟨List.mem_cons_self a t, by simpa using hv⟩

theorem GoTime.le_rfl (t : GoTime) : GoTime.le t t := by
  unfold GoTime.le; omega

theorem enrichID_eventID {fid : UUID} {e : AuditEvent} (h : e.eventID ≠ nilUUID) :
    (enrichID fid e).eventID = e.eventID := by
  unfold enrichID; rw [if_neg h]

theorem enrichCreatedAt_eventID (now : GoTime) (e : AuditEvent) :
    (enrichCreatedAt now e).eventID = e.eventID := by
  unfold enrichCreatedAt; split <;> rfl

theorem enrichTimestamp_eventID (e : AuditEvent) :
    (enrichTimestamp e).eventID = e.eventID := by
  unfold enrichTimestamp; split <;> rfl

theorem stored_eventID {mac : String → String} {kv : Int} {fid : UUID} {now : GoTime}
    {e : AuditEvent} (h : e.eventID ≠ nilUUID) :
    (signEvent mac kv (enrichEvent fid now e)).eventID = e.eventID := by
  show (enrichEvent fid now e).eventID = e.eventID
  unfold enrichEvent
  rw [enrichTimestamp_eventID, enrichCreatedAt_eventID, enrichID_eventID h]

theorem processAndStore_dup {mac : String → String} {kv : Int} {fid : UUID} {now : GoTime}
    {db : List AuditEvent} {ev : AuditEvent} (hid : ev.eventID ≠ nilUUID)
    (hdup : ev.eventID ∈ db.map (fun r => r.eventID)) :
    processAndStoreEvent mac kv fid now db ev =
      (signEvent mac kv (enrichEvent fid now ev),
       .error ("ledger persistence failed: failed to insert audit event: duplicate key value violates unique constraint audit_events_pkey")) := by
  have hc := createEvent_mem db (signEvent mac kv (enrichEvent fid now ev))
    (by rw [stored_eventID hid]; exact hdup)
  unfold processAndStoreEvent
  rw [hc]
  rfl

theorem retryStore_dup {mac : String → String} {kv : Int} {fid : UUID} {now : GoTime}
    {db : List AuditEvent} (n : Nat) :
    ∀ {ev : AuditEvent}, ev.eventID ≠ nilUUID → ev.eventID ∈ db.map (fun r => r.eventID) →
    retryStore mac kv fid now (n + 1) db ev = (db, n + 1) := by
  induction n with
  | zero =>
    intro ev hid hdup
    unfold retryStore
    rw [processAndStore_dup hid hdup]
    rfl
  | succ m ih =>
    intro ev hid hdup
    unfold retryStore
    rw [processAndStore_dup hid hdup]
    have hid2 : (signEvent mac kv (enrichEvent fid now ev)).eventID ≠ nilUUID := by
      rw [stored_eventID hid]; exact hid
    have hdup2 : (signEvent mac kv (enrichEvent fid now ev)).eventID ∈
        db.map (fun r => r.eventID) := by
      rw [stored_eventID hid]; exact hdup
    simp [ih hid2 hdup2]

theorem getEvents_events_eq (db : List AuditEvent) (f : AuditEventFilter) :
    (getEvents db f).events =
      ((List.insertionSort tsDescRel (db.filter (matchesFilter f))).drop f.offset).take
        f.limit := rfl

/-
Claim theorems.
-/

/-- C1: every audit event successfully stored via the ingest path (ProcessAndStoreEvent,
which signs the event and then appends it) verifies — VerifyDigitalSignature over the
stored record's event_id, user_id, action_type, RFC3339-formatted timestamp and result,
against its digital_signature, returns true. -/
theorem ingest_stored_event_verifies (mac : String → String) (kv : Int) (fid : UUID)
    (now : GoTime) (db : List AuditEvent) (e : AuditEvent) (db2 : List AuditEvent)
    (h : (processAndStoreEvent mac kv fid now db e).2 = .ok db2) :
    db2 = db ++ [(processAndStoreEvent mac kv fid now db e).1] ∧
    verifyStoredEvent mac (processAndStoreEvent mac kv fid now db e).1 = true := by
  constructor
  · rw [processAndStore_fst]
    unfold processAndStoreEvent at h
    cases hc : createEvent db (signEvent mac kv (enrichEvent fid now e)) with
    | error m => rw [hc] at h; simp at h
    | ok db3 =>
      rw [hc] at h
      simp at h
      rw [← h]
      exact createEvent_ok_elim hc
  · rw [processAndStore_fst]
    exact verifyStoredEvent_signEvent mac kv (enrichEvent fid now e)

/-- Witness for C1: a concrete LOGIN event stored into an empty ledger verifies. -/
theorem ingest_stored_event_verifies_witness :
    ((processAndStoreEvent wMac 1 wFreshID wNow [] wEv).2 = .ok [wStored]) ∧
    ([wStored] = [] ++ [(processAndStoreEvent wMac 1 wFreshID wNow [] wEv).1] ∧
      verifyStoredEvent wMac (processAndStoreEvent wMac 1 wFreshID wNow [] wEv).1 = true) :=
  ⟨rfl, ingest_stored_event_verifies wMac 1 wFreshID wNow [] wEv [wStored] rfl⟩

/-- C4 is refuted: the query orders by timestamp DESC only, with no event_id tie-break.
On a ledger holding two rows with equal timestamps and increasing event ids, the returned
page keeps the smaller event id first, although the claim requires the larger one first. -/
theorem getEvents_no_tiebreak_counterexample :
    ((getEvents [wEvA, wEvB] { limit := 2 }).events.map (fun e => e.eventID)) =
      [wEvA.eventID, wEvB.eventID] ∧
    wEvA.timestamp = wEvB.timestamp ∧
    wEvA.eventID ≠ wEvB.eventID ∧
    uuidLt wEvA.eventID wEvB.eventID = true := by
  refine ⟨rfl, rfl, by decide, rfl⟩

/-- C4 (amended): the records returned by GetEvents are ordered by timestamp descending
only; the ORDER BY clause names no tie-break column, so the relative order of records
with equal timestamps is unspecified. -/
theorem getEvents_sorted_timestamp_desc (db : List AuditEvent) (f : AuditEventFilter) :
    List.Sorted tsDescRel (getEvents db f).events := by
  have hs := List.sorted_insertionSort tsDescRel (db.filter (matchesFilter f))
  rw [getEvents_events_eq]
  exact hs.sublist (List.Sublist.trans (List.take_sublist _ _) (List.drop_sublist _ _))

/-- C5 is refuted: GetEvents builds predicates only for event_id, user_id,
transaction_id, resource_id and the time window; a filter asking for result = SUCCESS
still returns a FAILURE record. -/
theorem getEvents_ignores_result_counterexample :
    (getEvents [wFailEv] { result := some "SUCCESS", limit := 10 }).events = [wFailEv] ∧
    wFailEv.result ≠ "SUCCESS" := by
  refine ⟨rfl, by decide⟩

/-- C5 (amended): every record returned by GetEvents satisfies the predicates the source
actually builds — event_id, user_id, transaction_id, resource_id, start time and end
time; the action_type set, resource_type set, result, service_source and ip_address
fields of the filter are never translated into the query. -/
theorem getEvents_applies_built_predicates (db : List AuditEvent) (f : AuditEventFilter) :
    ∀ e ∈ (getEvents db f).events, matchesFilter f e = true := by
  intro e he
  exact List.of_mem_filter (mem_getEvents_mem_filter he)

/-- Witness for the amended C5: the record returned under a user_id filter matches it. -/
theorem getEvents_applies_built_predicates_witness :
    matchesFilter wUserFilter wEvA = true :=
  getEvents_applies_built_predicates [wEvA] wUserFilter wEvA (by decide)

/-- C8 is refuted: has_more is computed as totalCount > int64(Offset+Limit), and Go's
int addition wraps; at offset = limit = 2^62 (nonnegative values PostgreSQL accepts as
bigint OFFSET/LIMIT, so a page is returned) the sum wraps to -2^63, and an exhausted
page with zero rows and total 0 still reports has_more = true, while
total > offset + len(results) is false there. -/
theorem getEvents_hasMore_overflow_counterexample :
    (getEvents ([] : List AuditEvent) { limit := 2 ^ 62, offset := 2 ^ 62 }).hasMore =
      true ∧
    ¬((getEvents ([] : List AuditEvent) { limit := 2 ^ 62, offset := 2 ^ 62 }).totalCount >
        ((2 ^ 62 : Nat) : Int) +
          ((getEvents ([] : List AuditEvent)
              { limit := 2 ^ 62, offset := 2 ^ 62 }).events.length : Int)) := by
  refine ⟨rfl, by decide⟩

/-- C8 (amended): total_count is computed over the filter ignoring limit and offset
(equal to the number of all matching records), and has_more is
totalCount > int64(offset+limit) with Go's wrapping 64-bit addition of Offset and
Limit; whenever that sum does not overflow int64 — offset + limit < 2^63 — this
coincides with total > offset + len(results), while on overflow the code can report
has_more = true for an exhausted page. -/
theorem getEvents_totalCount_hasMore_wrap (db : List AuditEvent) (f : AuditEventFilter) :
    (getEvents db f).totalCount = ((db.filter (matchesFilter f)).length : Int) ∧
    (getEvents db f).hasMore =
      decide ((getEvents db f).totalCount >
        wrapInt64 ((f.offset : Int) + (f.limit : Int))) ∧
    ((f.offset : Int) + (f.limit : Int) < 2 ^ 63 →
      ((getEvents db f).hasMore = true ↔
        (getEvents db f).totalCount >
          (f.offset : Int) + ((getEvents db f).events.length : Int))) := by
  refine ⟨rfl, ?_, ?_⟩
  · unfold getEvents
    dsimp only
  intro hof
  have hlen : (getEvents db f).events.length =
      min f.limit ((db.filter (matchesFilter f)).length - f.offset) := by
    rw [getEvents_events_eq, List.length_take, List.length_drop,
      (List.perm_insertionSort tsDescRel (db.filter (matchesFilter f))).length_eq]
  have hm : (getEvents db f).hasMore =
      decide (((db.filter (matchesFilter f)).length : Int) >
        wrapInt64 ((f.offset : Int) + (f.limit : Int))) := by
    unfold getEvents
    dsimp only
  have ht : (getEvents db f).totalCount =
      ((db.filter (matchesFilter f)).length : Int) := rfl
  have hwrap : wrapInt64 ((f.offset : Int) + (f.limit : Int)) =
      (f.offset : Int) + (f.limit : Int) := by
    unfold wrapInt64
    omega
  rw [hm, hwrap, decide_eq_true_eq, hlen, ht]
  omega

/-- Witness for the amended C8: a non-overflowing filter (offset 2, limit 1) on a
one-row ledger, where the equivalence with total > offset + len(results) holds. -/
theorem getEvents_totalCount_hasMore_wrap_witness :
    (((2 : Nat) : Int) + ((1 : Nat) : Int) < 2 ^ 63) ∧
    ((getEvents [wEvA] { limit := 1, offset := 2 }).hasMore = true ↔
      (getEvents [wEvA] { limit := 1, offset := 2 }).totalCount >
        ((2 : Nat) : Int) +
          ((getEvents [wEvA] { limit := 1, offset := 2 }).events.length : Int)) :=
  ⟨by decide,
   (getEvents_totalCount_hasMore_wrap [wEvA] { limit := 1, offset := 2 }).2.2 (by decide)⟩

/-- C10: the Page computation of SearchRepository.SearchEvents is from/size + 1 with no
guard: it is well-defined exactly when size ≠ 0 (at size = 0 the integer division is a
runtime panic, modelled as none), and only the HTTP handler's defaulting of size to 20
rules the zero out at its own layer, so size ≠ 0 is a required precondition here. -/
theorem searchEvents_page_nonzero_size (fromIdx size total : Int)
    (events : List AuditEvent) :
    ((searchEventsPage fromIdx size total events).isSome ↔ size ≠ 0) ∧
    (size ≠ 0 → searchEventsPage fromIdx size total events =
      some { events := events, totalCount := total, page := fromIdx.tdiv size + 1,
             pageSize := size, hasMore := decide (total > fromIdx + size) }) ∧
    (∀ raw : Int, handlerSearchSize raw ≠ 0) := by
  refine ⟨?_, ?_, ?_⟩
  · unfold searchEventsPage
    by_cases h : size = 0 <;> simp [h]
  · intro h
    unfold searchEventsPage
    rw [if_neg h]
  · intro raw
    unfold handlerSearchSize
    by_cases h : raw = 0 <;> simp [h]

/-- Witness for C10: from = 40, size = 20 yields page 3; size 20 is nonzero. -/
theorem searchEvents_page_nonzero_size_witness :
    searchEventsPage 40 20 100 [] =
      some { events := [], totalCount := 100, page := 3, pageSize := 20,
             hasMore := true } :=
  (searchEvents_page_nonzero_size 40 20 100 []).2.1 (by decide)

theorem getAuditTrail_of_none {mac : String → String} {db : List AuditEvent}
    {f : AuditEventFilter} (h : firstInvalid mac (getEvents db f).events = none) :
    getAuditTrail mac db f = .ok (getEvents db f) := by
  unfold getAuditTrail
  rw [h]

theorem getAuditTrail_of_some {mac : String → String} {db : List AuditEvent}
    {f : AuditEventFilter} {e : AuditEvent}
    (h : firstInvalid mac (getEvents db f).events = some e) :
    getAuditTrail mac db f =
      .error ("audit integrity failure: event " ++ e.eventID.str ++ " signature invalid") := by
  unfold getAuditTrail
  rw [h]

/-- C2: GetAuditTrail verifies the digital signature of every record the ledger query
returns: the call succeeds with the whole page iff every returned record verifies; the
verification loop stops at the first failing record (firstInvalid is exactly List.find?
of the failing predicate), and on that first failure the call returns the integrity
error naming the offending record's event_id and no page at all. -/
theorem getAuditTrail_strict_verification (mac : String → String) (db : List AuditEvent)
    (f : AuditEventFilter) :
    (getAuditTrail mac db f = .ok (getEvents db f) ↔
      ∀ e ∈ (getEvents db f).events, verifyStoredEvent mac e = true) ∧
    (firstInvalid mac (getEvents db f).events =
      (getEvents db f).events.find? (fun e => ! verifyStoredEvent mac e)) ∧
    (∀ e0 : AuditEvent, firstInvalid mac (getEvents db f).events = some e0 →
      getAuditTrail mac db f =
        .error ("audit integrity failure: event " ++ e0.eventID.str ++ " signature invalid") ∧
      ∀ p : AuditEventPage, getAuditTrail mac db f ≠ .ok p) := by
  refine ⟨⟨?_, ?_⟩, firstInvalid_eq_find mac (getEvents db f).events, ?_⟩
  · intro hok
    cases hf : firstInvalid mac (getEvents db f).events with
    | none => exact (firstInvalid_none_iff mac (getEvents db f).events).mp hf
    | some e0 =>
      rw [getAuditTrail_of_some hf] at hok
      simp at hok
  · intro hall
    exact getAuditTrail_of_none ((firstInvalid_none_iff mac (getEvents db f).events).mpr hall)
  · intro e0 hf
    refine ⟨getAuditTrail_of_some hf, ?_⟩
    intro p
    rw [getAuditTrail_of_some hf]
    simp

/-- Witness for C2: a page holding one tampered record makes GetAuditTrail fail with the
integrity error naming that record's event id. -/
theorem getAuditTrail_strict_verification_witness :
    getAuditTrail wMac [wBad] { limit := 1 } =
      .error "audit integrity failure: event cccccccc-0000-0000-0000-000000000003 signature invalid" :=
  ((getAuditTrail_strict_verification wMac [wBad] { limit := 1 }).2.2 wBad rfl).1

/-- C3 is refuted: Timestamp.Format(time.RFC3339) drops sub-second precision, so
modifying a committed event's timestamp in memory by one nanosecond changes the
timestamp but leaves the binding string — and hence signature verification — unchanged:
VerifyDigitalSignature still returns true. -/
theorem verify_misses_subsecond_timestamp_change :
    (⟨100, 1⟩ : GoTime) ≠ wStored.timestamp ∧
    verifyDigitalSignature wMac wStored.eventID.str wStored.userID.str
      wStored.actionType (formatRFC3339 ⟨100, 1⟩) wStored.result
      wStored.digitalSignature = true := by
  refine ⟨by decide, rfl⟩

/-- C3 (amended): after commit, modifying any one of event_id, user_id, action_type or
result makes VerifyDigitalSignature return false (absent an HMAC collision — the MAC is
modelled as injective); modifying the timestamp makes it return false exactly when the
change alters the RFC3339 rendering, so whole-second changes are detected while
sub-second changes are not. -/
theorem verify_detects_bound_field_changes (mac : String → String)
    (hinj : Function.Injective mac) (e : AuditEvent)
    (hsig : e.digitalSignature = generateDigitalSignature mac e.eventID.str e.userID.str
      e.actionType (formatRFC3339 e.timestamp) e.result) :
    (∀ id2 : UUID, id2 ≠ e.eventID →
      verifyDigitalSignature mac id2.str e.userID.str e.actionType
        (formatRFC3339 e.timestamp) e.result e.digitalSignature = false) ∧
    (∀ u2 : UUID, u2 ≠ e.userID →
      verifyDigitalSignature mac e.eventID.str u2.str e.actionType
        (formatRFC3339 e.timestamp) e.result e.digitalSignature = false) ∧
    (∀ a2 : String, a2 ≠ e.actionType →
      verifyDigitalSignature mac e.eventID.str e.userID.str a2
        (formatRFC3339 e.timestamp) e.result e.digitalSignature = false) ∧
    (∀ r2 : String, r2 ≠ e.result →
      verifyDigitalSignature mac e.eventID.str e.userID.str e.actionType
        (formatRFC3339 e.timestamp) r2 e.digitalSignature = false) ∧
    (∀ t2 : GoTime, formatRFC3339 t2 ≠ formatRFC3339 e.timestamp →
      verifyDigitalSignature mac e.eventID.str e.userID.str e.actionType
        (formatRFC3339 t2) e.result e.digitalSignature = false) := by
  rw [hsig]
  unfold generateDigitalSignature
  refine ⟨fun x hx => ?_, fun x hx => ?_, fun x hx => ?_, fun x hx => ?_, fun x hx => ?_⟩
  · exact verifyHMAC_false hinj
      (fun hb => hx (uuid_eq_of_str (bindingString_inj_eventID hb)))
  · exact verifyHMAC_false hinj
      (fun hb => hx (uuid_eq_of_str (bindingString_inj_userID hb)))
  · exact verifyHMAC_false hinj (fun hb => hx (bindingString_inj_action hb))
  · exact verifyHMAC_false hinj (fun hb => hx (bindingString_inj_result hb))
  · exact verifyHMAC_false hinj (fun hb => hx (bindingString_inj_timestamp hb))

/-- Witness for the amended C3: replacing the committed event's id makes verification
fail. -/
theorem verify_detects_bound_field_changes_witness :
    verifyDigitalSignature wMac "zzzzzzzz-0000-0000-0000-000000000009" wStored.userID.str
      wStored.actionType (formatRFC3339 wStored.timestamp) wStored.result
      wStored.digitalSignature = false :=
  (verify_detects_bound_field_changes wMac (fun a b h => h) wStored rfl).1
    ⟨"zzzzzzzz-0000-0000-0000-000000000009"⟩ (by decide)

/-- C6 is refuted: CreateEvent performs no field-presence validation, and the NOT NULL
constraints cannot reject an event through this code path because Go's non-pointer
fields always encode as non-NULL SQL values; an event with empty digital_signature, nil
event_id and user_id, zero timestamp and empty result is committed to the ledger. -/
theorem createEvent_accepts_empty_signature :
    createEvent [] wEmptyEv = .ok [wEmptyEv] ∧
    wEmptyEv.digitalSignature = "" ∧ wEmptyEv.eventID = nilUUID ∧
    wEmptyEv.userID = nilUUID ∧ wEmptyEv.result = "" ∧
    wEmptyEv.timestamp = goZeroTime := by
  refine ⟨rfl, rfl, rfl, rfl, rfl, rfl⟩

/-- C6 (amended): CreateEvent fails exactly when storage rejects the write — a duplicate
event_id primary key; the NOT NULL constraints on digital_signature, event_id, user_id,
timestamp and result can never fire through this code path, because the Go struct
encodes all of these non-pointer fields as non-NULL SQL values, so an event lacking any
of them (empty or zero-valued) is still committed. -/
theorem createEvent_success_condition (db : List AuditEvent) (e : AuditEvent) :
    violatesNotNull (rowOfEvent e) = false ∧
    (createEvent db e = .ok (db ++ [e]) ↔ e.eventID ∉ db.map (fun r => r.eventID)) ∧
    (e.eventID ∈ db.map (fun r => r.eventID) →
      createEvent db e =
        .error "failed to insert audit event: duplicate key value violates unique constraint audit_events_pkey") := by
  refine ⟨violatesNotNull_rowOfEvent e, ⟨?_, fun h => createEvent_not_mem h⟩,
    fun h => createEvent_mem db e h⟩
  intro hok hmem
  rw [createEvent_mem db e hmem] at hok
  simp at hok

/-- Witness for the amended C6: re-inserting an already-present event id is rejected
with the unique violation. -/
theorem createEvent_success_condition_witness :
    createEvent [wEvA] wEvA =
      .error "failed to insert audit event: duplicate key value violates unique constraint audit_events_pkey" :=
  (createEvent_success_condition [wEvA] wEvA).2.2 (by decide)

/-- C7 is refuted in part: on a redelivered message whose event_id is already in the
ledger, the pipeline does not treat the unique-violation append failure as success — it
retries the same message for its full budget of three attempts before dropping it. The
ledger does stay at one row and the offset is committed, but further retries are made. -/
theorem processMessage_duplicate_counterexample :
    processMessage wMac 1 wFreshID wNow [wStored] wEv = ([wStored], 3, true) ∧
    (3 : Nat) ≠ 1 := by
  refine ⟨rfl, by decide⟩

/-- C7 (amended): when the bus redelivers a message whose event_id is already present,
each append attempt fails with the unique-violation; the pipeline retries the message up
to its full budget of three attempts and then drops it, logging the failure rather than
treating it as success; the ledger is left unchanged — still exactly one row with that
event_id — and the message's offset is committed regardless. -/
theorem processMessage_duplicate_behavior (mac : String → String) (kv : Int) (fid : UUID)
    (now : GoTime) (db : List AuditEvent) (ev : AuditEvent)
    (hid : ev.eventID ≠ nilUUID) (hdup : ev.eventID ∈ db.map (fun r => r.eventID)) :
    processMessage mac kv fid now db ev = (db, 3, true) ∧
    ((db.map (fun r => r.eventID)).count ev.eventID = 1 →
      ((processMessage mac kv fid now db ev).1.map (fun r => r.eventID)).count
        ev.eventID = 1) := by
  have h3 : retryStore mac kv fid now 3 db ev = (db, 3) := retryStore_dup 2 hid hdup
  constructor
  · unfold processMessage
    rw [h3]
  · intro h1
    unfold processMessage
    rw [h3]
    exact h1

/-- Witness for the amended C7: the redelivered LOGIN message leaves exactly one row
with its event id in the ledger. -/
theorem processMessage_duplicate_behavior_witness :
    (([wStored].map (fun r => r.eventID)).count wEv.eventID = 1) ∧
    (((processMessage wMac 1 wFreshID wNow [wStored] wEv).1.map
        (fun r => r.eventID)).count wEv.eventID = 1) :=
  ⟨by decide,
   (processMessage_duplicate_behavior wMac 1 wFreshID wNow [wStored] wEv (by decide)
     (by decide)).2 (by decide)⟩

/-- C9: tail_signature returns the empty string and no error on an empty ledger (the
genesis case), and on a non-empty ledger it returns the digital_signature of a most
recently timestamped record. -/
theorem getLastEventSignature_genesis_and_latest (db : List AuditEvent) :
    (db = [] → getLastEventSignature db = .ok "") ∧
    (db ≠ [] → ∃ e, e ∈ db ∧ getLastEventSignature db = .ok e.digitalSignature ∧
      ∀ x ∈ db, GoTime.le x.timestamp e.timestamp) := by
  constructor
  · intro h
    rw [h]
    rfl
  · intro h
    have hperm := List.perm_insertionSort tsDescRel db
    cases hs : List.insertionSort tsDescRel db with
    | nil =>
      rw [hs] at hperm
      exact absurd (List.Perm.eq_nil hperm.symm) h
    | cons a t =>
      have hmem : a ∈ db := by
        have ha : a ∈ List.insertionSort tsDescRel db := by
          rw [hs]
          exact List.mem_cons_self a t
        exact hperm.mem_iff.mp ha
      refine ⟨a, hmem, ?_, ?_⟩
      · unfold getLastEventSignature
        rw [hs]
        rfl
      · intro x hx
        have hxs : x ∈ List.insertionSort tsDescRel db := hperm.mem_iff.mpr hx
        rw [hs] at hxs
        rcases List.mem_cons.mp hxs with h1 | h1
        · rw [h1]
          exact GoTime.le_rfl a.timestamp
        · have hsorted := List.sorted_insertionSort tsDescRel db
          rw [hs] at hsorted
          exact (List.sorted_cons.mp hsorted).1 x h1

/-- Witness for C9: the empty ledger yields the empty string; a one-row ledger yields
that row's signature. -/
theorem getLastEventSignature_genesis_and_latest_witness :
    (getLastEventSignature ([] : List AuditEvent) = .ok "") ∧
    (∃ e, e ∈ [wEvA] ∧ getLastEventSignature [wEvA] = .ok e.digitalSignature ∧
      ∀ x ∈ [wEvA], GoTime.le x.timestamp e.timestamp) :=
  ⟨(getLastEventSignature_genesis_and_latest []).1 rfl,
   (getLastEventSignature_genesis_and_latest [wEvA]).2 (by decide)⟩

end BankingAudit
